import Mathlib

/-!
Shallow embedding of the `openmetrics-nom` parser (src/lib.rs) over `List Char`
inputs, together with the nom 7 combinators the crate uses.

A parser takes the remaining input and returns either `ok rest value`
(nom `Ok((rest, value))`), a recoverable error (nom `Err::Error`) or an
unrecoverable failure (nom `Err::Failure`, produced by `cut`).  nom's
`context` combinator only decorates errors, so it is omitted; error *kinds*
are likewise not tracked, only the error/failure distinction, which is what
drives `alt`/`opt`/`many*` control flow.

Spans are modelled as the consumed prefix of the input (a `List Char`),
matching nom's `recognize`/`consumed`, which slice the input from its start
to the offset of the remaining input.
-/

namespace ON

abbrev Input := List Char

inductive PRes (α : Type) where
  | ok (rest : Input) (val : α)
  | err
  | fail
deriving Repr, DecidableEq

def Parser (α : Type) : Type := Input → PRes α

def Parser.bind {α β : Type} (p : Parser α) (f : α → Parser β) : Parser β := fun i =>
  match p i with
  | .ok r a => f a r
  | .err => .err
  | .fail => .fail

instance : Monad Parser where
  pure a := fun i => .ok i a
  bind := Parser.bind

/-- nom `character::complete::char`. -/
def char (c : Char) : Parser Char := fun i =>
  match i with
  | x :: r => if x = c then .ok r x else .err
  | [] => .err

/-- nom `character::complete::satisfy`. -/
def satisfy (f : Char → Bool) : Parser Char := fun i =>
  match i with
  | x :: r => if f x then .ok r x else .err
  | [] => .err

/-- nom `bytes::complete::tag` (case-sensitive literal). -/
def tag (t : Input) : Parser Input := fun i =>
  if t.isPrefixOf i then .ok (i.drop t.length) (i.take t.length) else .err

/-- nom `bytes::complete::tag_no_case`.  The literals used by the crate are
pure ASCII, for which Rust's per-char `to_lowercase` comparison coincides
with ASCII lowercasing. -/
def tagNoCase (t : Input) : Parser Input := fun i =>
  if t.length ≤ i.length ∧ (List.zip (i.take t.length) t).all fun p => p.1.toLower = p.2.toLower
  then .ok (i.drop t.length) (i.take t.length)
  else .err

/-- nom `bytes::complete::take_while` (always succeeds, maximal run). -/
def take_while (f : Char → Bool) : Parser Input := fun i =>
  .ok (i.dropWhile f) (i.takeWhile f)

/-- nom `character::complete::digit1`: a non-empty maximal run of ASCII digits. -/
def digit1 : Parser Input := fun i =>
  if (i.takeWhile Char.isDigit).isEmpty then .err
  else .ok (i.drop (i.takeWhile Char.isDigit).length) (i.takeWhile Char.isDigit)

/-- nom `combinator::opt`: recoverable errors become `none`, failures propagate. -/
def opt (p : Parser α) : Parser (Option α) := fun i =>
  match p i with
  | .ok r a => .ok r (some a)
  | .err => .ok i none
  | .fail => .fail

/-- nom `branch::alt` restricted to two branches; `alt((a, b, c))` is
`alt2 a (alt2 b c)`.  The second branch is tried only on a recoverable error. -/
def alt2 (p q : Parser α) : Parser α := fun i =>
  match p i with
  | .err => q i
  | x => x

/-- nom `combinator::cut`: turn a recoverable error into a failure. -/
def cut (p : Parser α) : Parser α := fun i =>
  match p i with
  | .err => .fail
  | x => x

/-- nom `combinator::recognize`: the span consumed by `p`. -/
def recognizeP (p : Parser α) : Parser Input := fun i =>
  match p i with
  | .ok r _ => .ok r (i.take (i.length - r.length))
  | .err => .err
  | .fail => .fail

/-- nom `combinator::consumed`: the consumed span paired with `p`'s output. -/
def consumedP (p : Parser α) : Parser (Input × α) := fun i =>
  match p i with
  | .ok r a => .ok r (i.take (i.length - r.length), a)
  | .err => .err
  | .fail => .fail

/-- Loop body of nom `multi::many0`.  The fuel argument only bounds the
recursion; nom's own infinite-loop guard (a successful inner parse that
consumes nothing is an error) guarantees that `length + 1` fuel is never
exhausted. -/
def many0Go (p : Parser α) : Nat → Input → PRes (List α)
  | 0, _ => .err
  | fuel + 1, i =>
    match p i with
    | .err => .ok i []
    | .fail => .fail
    | .ok r a =>
      if r.length < i.length then
        match many0Go p fuel r with
        | .ok r2 as => .ok r2 (a :: as)
        | .err => .err
        | .fail => .fail
      else .err

/-- nom `multi::many0` (also the consumption behaviour of `fold_many0`). -/
def many0 (p : Parser α) : Parser (List α) := fun i => many0Go p (i.length + 1) i

/-- nom `multi::many1` / `fold_many1`: a first mandatory element, then the
`many0` loop (nom's loop after the first element is identical to `many0`'s,
including the zero-consumption guard). -/
def many1 (p : Parser α) : Parser (List α) := fun i =>
  match p i with
  | .err => .err
  | .fail => .fail
  | .ok r a =>
    match many0 p r with
    | .ok r2 as => .ok r2 (a :: as)
    | .err => .err
    | .fail => .fail

/-- `fold_many0` with a unit accumulator, as used by the crate: same
consumption and error behaviour as `many0`, discarding the results. -/
def fold_many0 (p : Parser α) : Parser Unit := fun i =>
  match many0 p i with
  | .ok r _ => .ok r ()
  | .err => .err
  | .fail => .fail

/-- `fold_many1` with a unit accumulator, as used by the crate. -/
def fold_many1 (p : Parser α) : Parser Unit := fun i =>
  match many1 p i with
  | .ok r _ => .ok r ()
  | .err => .err
  | .fail => .fail

/-- Loop of nom `multi::separated_list0`, entered after the first element:
separator then element; a recoverable error in either returns the input
position from before the separator.  Only the separator carries nom's
zero-consumption guard. -/
def sepList0Go (sep : Parser β) (p : Parser α) : Nat → Input → PRes (List α)
  | 0, _ => .err
  | fuel + 1, i =>
    match sep i with
    | .err => .ok i []
    | .fail => .fail
    | .ok r1 _ =>
      if r1.length < i.length then
        match p r1 with
        | .err => .ok i []
        | .fail => .fail
        | .ok r2 a =>
          match sepList0Go sep p fuel r2 with
          | .ok r3 as => .ok r3 (a :: as)
          | .err => .err
          | .fail => .fail
      else .err

/-- nom `multi::separated_list0`. -/
def sepList0 (sep : Parser β) (p : Parser α) : Parser (List α) := fun i =>
  match p i with
  | .err => .ok i []
  | .fail => .fail
  | .ok r a =>
    match sepList0Go sep p (r.length + 1) r with
    | .ok r2 as => .ok r2 (a :: as)
    | .err => .err
    | .fail => .fail

def str (s : String) : Input := s.data

-- RFC 5234 B.1. constants of src/lib.rs
def DQUOTE : Char := '"'
def SP : Char := ' '
def LF : Char := '\n'

def EOF : Input := str "EOF"
def TYPE : Input := str "TYPE"
def HELP : Input := str "HELP"
def UNIT : Input := str "UNIT"

def COUNTER : Input := str "counter"
def GAUGE : Input := str "gauge"
def HISTOGRAM : Input := str "histogram"
def GAUGEHISTOGRAM : Input := str "gaugehistogram"
def STATESET : Input := str "stateset"
def INFO : Input := str "info"
def SUMMARY : Input := str "summary"
def UNKNOWN : Input := str "unknown"

def BS : Char := '\\'
def EQ : Char := '='
def COMMA : Char := ','
def HASH : Char := '#'

def is_sign (c : Char) : Bool := c = '-' || c = '+'

def is_metricname_initial_char (c : Char) : Bool := c.isAlpha || c = '_' || c = ':'

def is_metricname_char (c : Char) : Bool := is_metricname_initial_char c || c.isDigit

def is_label_name_initial_char (c : Char) : Bool := c.isAlpha

def is_label_name_char (c : Char) : Bool := is_label_name_initial_char c || c.isDigit

def is_normal_char (c : Char) : Bool := c ≠ LF && c ≠ DQUOTE && c ≠ BS

def is_help_normal_char (c : Char) : Bool := c ≠ LF && c ≠ BS

/-- nom 7 `number::complete::recognize_float`:
`[sign] (digit1 ['.' [digit1]] | '.' digit1) [('e'|'E') [sign] cut(digit1)]`. -/
def recognize_float : Parser Input :=
  recognizeP (do
    _ ← opt (alt2 (char '+') (char '-'))
    _ ← alt2
      (do
        _ ← digit1
        _ ← opt (do
          _ ← char '.'
          _ ← opt digit1
          pure ())
        pure ())
      (do
        _ ← char '.'
        _ ← digit1
        pure ())
    _ ← opt (do
      _ ← alt2 (char 'e') (char 'E')
      _ ← opt (alt2 (char '+') (char '-'))
      _ ← cut digit1
      pure ())
    pure ())

def realnumber : Parser Input := recognize_float

-- `pub use self::realnumber as timestamp;`
def timestamp : Parser Input := realnumber

def number : Parser Input :=
  alt2 realnumber
    (alt2
      (recognizeP (do
        _ ← opt (satisfy is_sign)
        _ ← alt2 (tagNoCase (str "inf")) (tagNoCase (str "infinity"))
        pure ()))
      (recognizeP (tagNoCase (str "nan"))))

def metricname : Parser Input :=
  recognizeP (do
    _ ← satisfy is_metricname_initial_char
    _ ← fold_many0 (satisfy is_metricname_char)
    pure ())

def label_name : Parser Input :=
  recognizeP (do
    _ ← satisfy is_label_name_initial_char
    _ ← fold_many0 (satisfy is_label_name_char)
    pure ())

inductive EscapedStringFragment where
  | Normal (s : Input)
  | Lf
  | Dquote
  | Bs
deriving Repr, DecidableEq

structure EscapedString where
  fragments : List (Input × EscapedStringFragment)
deriving Repr, DecidableEq

def escaped_string_fragment : Parser EscapedStringFragment :=
  alt2
    (do
      let s ← recognizeP (fold_many1 (alt2
        (do _ ← satisfy is_normal_char; pure ())
        (do _ ← char BS; _ ← satisfy fun c => is_normal_char c && c ≠ 'n'; pure ())))
      pure (EscapedStringFragment.Normal s))
    (alt2
      (do _ ← char BS; _ ← char 'n'; pure EscapedStringFragment.Lf)
      (alt2
        (do _ ← char BS; _ ← char DQUOTE; pure EscapedStringFragment.Dquote)
        (do _ ← char BS; _ ← char BS; pure EscapedStringFragment.Bs)))

def escaped_string : Parser EscapedString := do
  let fs ← many0 (consumedP escaped_string_fragment)
  pure (EscapedString.mk fs)

-- https://github.com/prometheus/OpenMetrics/issues/288
inductive HelpEscapedStringFragment where
  | Normal (s : Input)
  | Lf
  | Dquote
  | Bs
deriving Repr, DecidableEq

structure HelpEscapedString where
  fragments : List (Input × HelpEscapedStringFragment)
deriving Repr, DecidableEq

def help_escaped_string_fragment : Parser HelpEscapedStringFragment :=
  alt2
    (do
      let s ← recognizeP (fold_many1 (alt2
        (do _ ← satisfy is_help_normal_char; pure ())
        (do _ ← char BS; _ ← satisfy fun c => is_help_normal_char c && c ≠ 'n'; pure ())))
      pure (HelpEscapedStringFragment.Normal s))
    (alt2
      (do _ ← char BS; _ ← char 'n'; pure HelpEscapedStringFragment.Lf)
      (do _ ← char BS; _ ← char BS; pure HelpEscapedStringFragment.Bs))

def help_escaped_string : Parser HelpEscapedString := do
  let fs ← many0 (consumedP help_escaped_string_fragment)
  pure (HelpEscapedString.mk fs)

structure Label where
  label_name : Input
  escaped_string : Input × EscapedString
deriving Repr, DecidableEq

def label : Parser Label := do
  let n ← label_name
  _ ← char EQ
  _ ← char DQUOTE
  let s ← consumedP escaped_string
  _ ← char DQUOTE
  pure (Label.mk n s)

structure Labels where
  label : List (Input × Label)
deriving Repr, DecidableEq

def labels : Parser Labels := do
  _ ← char '\x7b'
  let l ← sepList0 (char COMMA) (consumedP label)
  _ ← char '\x7d'
  pure (Labels.mk l)

structure Exemplar where
  labels : Input × Labels
  number : Input
  timestamp : Option Input
deriving Repr, DecidableEq

def exemplar : Parser Exemplar := do
  _ ← char SP
  _ ← char HASH
  _ ← char SP
  let l ← consumedP labels
  _ ← char SP
  let n ← number
  let t ← opt (do _ ← char SP; timestamp)
  pure (Exemplar.mk l n t)

structure Sample where
  metricname : Input
  labels : Option (Input × Labels)
  number : Input
  timestamp : Option Input
  exemplar : Option (Input × Exemplar)
deriving Repr, DecidableEq

def sample : Parser Sample := do
  let m ← metricname
  let l ← opt (consumedP labels)
  _ ← char SP
  let n ← number
  let t ← opt (do _ ← char SP; timestamp)
  let e ← opt (consumedP exemplar)
  _ ← char LF
  pure (Sample.mk m l n t e)

/-- `Metric.sample` is a one-element array `[(I, Sample<I>); 1]` in the
source, modelled as a list that the parser always fills with one element. -/
structure Metric where
  sample : List (Input × Sample)
deriving Repr, DecidableEq

def metric : Parser Metric := do
  let s ← consumedP sample
  pure (Metric.mk [s])

inductive MetricType where
  | Counter
  | Gauge
  | Histogram
  | Gaugehistogram
  | Stateset
  | Info
  | Summary
  | Unknown
deriving Repr, DecidableEq

def metric_type : Parser MetricType :=
  alt2 (do _ ← tag COUNTER; pure MetricType.Counter)
    -- try `gaugehistogram` before `gauge`
    (alt2 (do _ ← tag GAUGEHISTOGRAM; pure MetricType.Gaugehistogram)
      (alt2 (do _ ← tag GAUGE; pure MetricType.Gauge)
        (alt2 (do _ ← tag HISTOGRAM; pure MetricType.Histogram)
          (alt2 (do _ ← tag STATESET; pure MetricType.Stateset)
            (alt2 (do _ ← tag INFO; pure MetricType.Info)
              (alt2 (do _ ← tag SUMMARY; pure MetricType.Summary)
                (do _ ← tag UNKNOWN; pure MetricType.Unknown)))))))

/-- `MetricDescriptor`; the `Type` variant is spelled `Type'` because `Type`
is a Lean keyword. -/
inductive MetricDescriptor where
  | Type' (metricname : Input) (metric_type : Input × MetricType)
  | Help (metricname : Input) (help_escaped_string : Input × HelpEscapedString)
  | Unit (metricname : Input) (metricname_char : Input)
deriving Repr, DecidableEq

def metric_descriptor : Parser MetricDescriptor :=
  alt2
    (do
      _ ← char HASH
      _ ← char SP
      _ ← tag TYPE
      _ ← char SP
      let m ← metricname
      _ ← char SP
      let t ← consumedP metric_type
      _ ← char LF
      pure (MetricDescriptor.Type' m t))
    (alt2
      (do
        _ ← char HASH
        _ ← char SP
        _ ← tag HELP
        _ ← char SP
        let m ← metricname
        _ ← char SP
        let h ← consumedP help_escaped_string
        _ ← char LF
        pure (MetricDescriptor.Help m h))
      (do
        _ ← char HASH
        _ ← char SP
        _ ← tag UNIT
        _ ← char SP
        let m ← metricname
        _ ← char SP
        let u ← take_while is_metricname_char
        _ ← char LF
        pure (MetricDescriptor.Unit m u)))

structure Metricfamily where
  metric_descriptor : List (Input × MetricDescriptor)
  metric : List (Input × Metric)
deriving Repr, DecidableEq

def metricfamily : Parser Metricfamily :=
  alt2
    (do
      let d ← many1 (consumedP metric_descriptor)
      let m ← many0 (consumedP metric)
      pure (Metricfamily.mk d m))
    (do
      let d ← many0 (consumedP metric_descriptor)
      let m ← many1 (consumedP metric)
      pure (Metricfamily.mk d m))

structure Metricset where
  metricfamily : List (Input × Metricfamily)
deriving Repr, DecidableEq

def metricset : Parser Metricset := do
  let f ← many0 (consumedP metricfamily)
  pure (Metricset.mk f)

structure Exposition where
  metricset : Input × Metricset
deriving Repr, DecidableEq

def exposition : Parser Exposition := do
  let m ← consumedP metricset
  _ ← char HASH
  _ ← char SP
  _ ← tag EOF
  _ ← opt (char LF)
  pure (Exposition.mk m)

/-- Drop one leading `+`/`-` sign, if present. -/
def signSkip (s : Input) : Input :=
  match s with
  | c :: r => if c = '+' || c = '-' then r else s
  | [] => s

/-- Drop the maximal leading run of ASCII digits. -/
def dropDigits (s : Input) : Input := s.drop (s.takeWhile Char.isDigit).length

/-- Whether the input starts with at least one ASCII digit. -/
def hasDigits (s : Input) : Bool := !(s.takeWhile Char.isDigit).isEmpty

def specDigits (s : Input) : Bool := !s.isEmpty && s.all Char.isDigit

/-- Exact match of `('e'|'E') [sign] digits`. -/
def specExponent (s : Input) : Bool :=
  match s with
  | c :: rest => (c = 'e' || c = 'E') && specDigits (signSkip rest)
  | [] => false

def specExponentOpt (s : Input) : Bool := s.isEmpty || specExponent s

/-- Membership in the real-number language stated by the specification:
`[sign] digits ['.' digits] [exponent]` or `[sign] '.' digits [exponent]`,
with `exponent = ('e'|'E') [sign] digits` and `digits` one-or-more ASCII
digits (exact match of the whole string). -/
def specRealLang (s : Input) : Bool :=
  if hasDigits (signSkip s) then
    match dropDigits (signSkip s) with
    | c :: r1 =>
      if c = '.' then hasDigits r1 && specExponentOpt (dropDigits r1)
      else specExponentOpt (c :: r1)
    | [] => true
  else
    match signSkip s with
    | c :: r1 =>
      if c = '.' then hasDigits r1 && specExponentOpt (dropDigits r1)
      else false
    | [] => false

/-- Reference description of the remainder computed by nom 7's
`recognize_float` after the mantissa: an optional exponent whose digits are
mandatory once the `e`/`E` marker is consumed — their absence is a hard
failure (`cut`), not a backtrack. -/
def specNomFloatExpRest (r : Input) : PRes Unit :=
  match r with
  | c :: r1 =>
    if c = 'e' || c = 'E' then
      if hasDigits (signSkip r1) then .ok (dropDigits (signSkip r1)) () else .fail
    else .ok r ()
  | [] => .ok r ()

/-- Fraction part of the first mantissa alternative: `['.' [digits]]`. -/
def specFracSkip (s : Input) : Input :=
  match s with
  | c :: r => if c = '.' then dropDigits r else s
  | [] => s

/-- Reference description of the remainder computed by nom 7's
`recognize_float`: optional sign, then either digits optionally followed by
`'.'` and optional digits, or `'.'` digits, then the optional exponent of
`specNomFloatExpRest`. -/
def specNomFloatRest (i : Input) : PRes Unit :=
  if hasDigits (signSkip i) then
    specNomFloatExpRest (specFracSkip (dropDigits (signSkip i)))
  else
    match signSkip i with
    | c :: r1 =>
      if c = '.' then
        (if hasDigits r1 then specNomFloatExpRest (dropDigits r1) else .err)
      else .err
    | [] => .err

/-- Reference real-number recognizer: the span is everything before the
remainder of `specNomFloatRest`. -/
def specNomFloat : Parser Input := recognizeP (fun i => specNomFloatRest i)

/-- `p` only consumes a prefix of its input: on success the rest is a suffix. -/
def Consumes (p : Parser α) : Prop := ∀ i r a, p i = .ok r a → r.IsSuffix i

/-- `p` consumes at least one character on success. -/
def ConsumesLt (p : Parser α) : Prop := ∀ i r a, p i = .ok r a → r.length < i.length

/-- `p` never returns nom's unrecoverable `Err::Failure`. -/
def NoFail (p : Parser α) : Prop := ∀ i, p i ≠ .fail

theorem consumes_pure (a : α) : Consumes (pure a : Parser α) := by
  intro i r b h
  cases h
  exact List.suffix_rfl

theorem consumes_bind {p : Parser α} {f : α → Parser β}
    (hp : Consumes p) (hf : ∀ a, Consumes (f a)) : Consumes (p >>= f) := by
  intro i r b h
  have h' : Parser.bind p f i = .ok r b := h
  unfold Parser.bind at h'
  cases hp' : p i with
  | ok r1 a =>
    rw [hp'] at h'
    exact (hf a r1 r b h').trans (hp i r1 a hp')
  | err => rw [hp'] at h'; cases h'
  | fail => rw [hp'] at h'; cases h'

theorem consumes_char (c : Char) : Consumes (char c) := by
  intro i r a h
  unfold char at h
  split at h
  · split at h
    · cases h; exact List.suffix_cons _ _
    · cases h
  · cases h

theorem consumes_satisfy (f : Char → Bool) : Consumes (satisfy f) := by
  intro i r a h
  unfold satisfy at h
  split at h
  · split at h
    · cases h; exact List.suffix_cons _ _
    · cases h
  · cases h

theorem consumes_tag (t : Input) : Consumes (tag t) := by
  intro i r a h
  unfold tag at h
  split at h
  · cases h; exact List.drop_suffix t.length i
  · cases h

theorem consumes_tagNoCase (t : Input) : Consumes (tagNoCase t) := by
  intro i r a h
  unfold tagNoCase at h
  split at h
  · cases h; exact List.drop_suffix t.length i
  · cases h

theorem consumes_take_while (f : Char → Bool) : Consumes (take_while f) := by
  intro i r a h
  unfold take_while at h
  cases h
  exact ⟨i.takeWhile f, List.takeWhile_append_dropWhile f i⟩

theorem consumes_digit1 : Consumes digit1 := by
  intro i r a h
  unfold digit1 at h
  split at h
  · cases h
  · cases h; exact List.drop_suffix _ i

theorem consumes_opt {p : Parser α} (hp : Consumes p) : Consumes (opt p) := by
  intro i r a h
  unfold opt at h
  split at h
  next hp' => cases h; exact hp _ _ _ hp'
  next => cases h; exact List.suffix_rfl
  next => cases h

theorem consumes_alt2 {p q : Parser α} (hp : Consumes p) (hq : Consumes q) :
    Consumes (alt2 p q) := by
  intro i r a h
  unfold alt2 at h
  cases hp' : p i with
  | ok r1 b =>
    rw [hp'] at h
    have h2 : PRes.ok r1 b = PRes.ok r a := h
    cases h2
    exact hp _ _ _ hp'
  | err =>
    rw [hp'] at h
    exact hq _ _ _ h
  | fail =>
    rw [hp'] at h
    have h2 : (PRes.fail : PRes α) = PRes.ok r a := h
    cases h2

theorem consumes_cut {p : Parser α} (hp : Consumes p) : Consumes (cut p) := by
  intro i r a h
  unfold cut at h
  cases hp' : p i with
  | ok r1 b =>
    rw [hp'] at h
    have h2 : PRes.ok r1 b = PRes.ok r a := h
    cases h2
    exact hp _ _ _ hp'
  | err =>
    rw [hp'] at h
    have h2 : (PRes.fail : PRes α) = PRes.ok r a := h
    cases h2
  | fail =>
    rw [hp'] at h
    have h2 : (PRes.fail : PRes α) = PRes.ok r a := h
    cases h2

theorem consumes_recognizeP {p : Parser α} (hp : Consumes p) : Consumes (recognizeP p) := by
  intro i r a h
  unfold recognizeP at h
  split at h
  next hp' => cases h; exact hp _ _ _ hp'
  next => cases h
  next => cases h

theorem consumes_consumedP {p : Parser α} (hp : Consumes p) : Consumes (consumedP p) := by
  intro i r a h
  unfold consumedP at h
  split at h
  next hp' => cases h; exact hp _ _ _ hp'
  next => cases h
  next => cases h

theorem consumes_many0Go {p : Parser α} (hp : Consumes p) :
    ∀ fuel i r xs, many0Go p fuel i = .ok r xs → r.IsSuffix i := by
  intro fuel
  induction fuel with
  | zero => intro i r xs h; cases h
  | succ n ih =>
    intro i r xs h
    unfold many0Go at h
    split at h
    next => cases h; exact List.suffix_rfl
    next => cases h
    next r1 a hp' =>
      split at h
      · split at h
        next hrec => cases h; exact (ih _ _ _ hrec).trans (hp _ _ _ hp')
        next => cases h
        next => cases h
      · cases h

theorem consumes_many0 {p : Parser α} (hp : Consumes p) : Consumes (many0 p) := by
  intro i r xs h
  exact consumes_many0Go hp (i.length + 1) i r xs h

theorem consumes_many1 {p : Parser α} (hp : Consumes p) : Consumes (many1 p) := by
  intro i r xs h
  unfold many1 at h
  split at h
  next => cases h
  next => cases h
  next r1 a hp' =>
    split at h
    next hm => cases h; exact (consumes_many0 hp _ _ _ hm).trans (hp _ _ _ hp')
    next => cases h
    next => cases h

theorem consumes_fold_many0 {p : Parser α} (hp : Consumes p) : Consumes (fold_many0 p) := by
  intro i r a h
  unfold fold_many0 at h
  split at h
  next hm => cases h; exact consumes_many0 hp _ _ _ hm
  next => cases h
  next => cases h

theorem consumes_fold_many1 {p : Parser α} (hp : Consumes p) : Consumes (fold_many1 p) := by
  intro i r a h
  unfold fold_many1 at h
  split at h
  next hm => cases h; exact consumes_many1 hp _ _ _ hm
  next => cases h
  next => cases h

theorem consumes_sepList0Go {sep : Parser β} {p : Parser α}
    (hs : Consumes sep) (hp : Consumes p) :
    ∀ fuel i r xs, sepList0Go sep p fuel i = .ok r xs → r.IsSuffix i := by
  intro fuel
  induction fuel with
  | zero => intro i r xs h; cases h
  | succ n ih =>
    intro i r xs h
    unfold sepList0Go at h
    split at h
    next => cases h; exact List.suffix_rfl
    next => cases h
    next r1 b hs' =>
      split at h
      · split at h
        next => cases h; exact List.suffix_rfl
        next => cases h
        next r2 a hp' =>
          split at h
          next hrec =>
            cases h
            exact ((ih _ _ _ hrec).trans (hp _ _ _ hp')).trans (hs _ _ _ hs')
          next => cases h
          next => cases h
      · cases h

theorem consumes_sepList0 {sep : Parser β} {p : Parser α}
    (hs : Consumes sep) (hp : Consumes p) : Consumes (sepList0 sep p) := by
  intro i r xs h
  unfold sepList0 at h
  split at h
  next => cases h; exact List.suffix_rfl
  next => cases h
  next r1 a hp' =>
    split at h
    next hg => cases h; exact (consumes_sepList0Go hs hp _ _ _ _ hg).trans (hp _ _ _ hp')
    next => cases h
    next => cases h

theorem consumes_metricname : Consumes metricname := by
  unfold metricname
  repeat'
    first
    | apply consumes_pure
    | apply consumes_satisfy
    | apply consumes_fold_many0
    | apply consumes_recognizeP
    | apply consumes_bind
    | intro _

theorem consumes_label_name : Consumes label_name := by
  unfold label_name
  repeat'
    first
    | apply consumes_pure
    | apply consumes_satisfy
    | apply consumes_fold_many0
    | apply consumes_recognizeP
    | apply consumes_bind
    | intro _

theorem consumes_recognize_float : Consumes recognize_float := by
  unfold recognize_float
  repeat'
    first
    | apply consumes_pure
    | apply consumes_char
    | apply consumes_digit1
    | apply consumes_opt
    | apply consumes_cut
    | apply consumes_alt2
    | apply consumes_recognizeP
    | apply consumes_bind
    | intro _

theorem consumes_realnumber : Consumes realnumber := consumes_recognize_float

theorem consumes_timestamp : Consumes timestamp := consumes_recognize_float

theorem consumes_number : Consumes number := by
  unfold number
  repeat'
    first
    | exact consumes_realnumber
    | apply consumes_pure
    | apply consumes_satisfy
    | apply consumes_tagNoCase
    | apply consumes_opt
    | apply consumes_alt2
    | apply consumes_recognizeP
    | apply consumes_bind
    | intro _

theorem consumes_escaped_string_fragment : Consumes escaped_string_fragment := by
  unfold escaped_string_fragment
  repeat'
    first
    | apply consumes_pure
    | apply consumes_char
    | apply consumes_satisfy
    | apply consumes_fold_many1
    | apply consumes_alt2
    | apply consumes_recognizeP
    | apply consumes_bind
    | intro _

theorem consumes_escaped_string : Consumes escaped_string := by
  unfold escaped_string
  repeat'
    first
    | exact consumes_escaped_string_fragment
    | apply consumes_pure
    | apply consumes_consumedP
    | apply consumes_many0
    | apply consumes_bind
    | intro _

theorem consumes_help_escaped_string_fragment : Consumes help_escaped_string_fragment := by
  unfold help_escaped_string_fragment
  repeat'
    first
    | apply consumes_pure
    | apply consumes_char
    | apply consumes_satisfy
    | apply consumes_fold_many1
    | apply consumes_alt2
    | apply consumes_recognizeP
    | apply consumes_bind
    | intro _

theorem consumes_help_escaped_string : Consumes help_escaped_string := by
  unfold help_escaped_string
  repeat'
    first
    | exact consumes_help_escaped_string_fragment
    | apply consumes_pure
    | apply consumes_consumedP
    | apply consumes_many0
    | apply consumes_bind
    | intro _

theorem consumes_label : Consumes label := by
  unfold label
  repeat'
    first
    | exact consumes_label_name
    | exact consumes_escaped_string
    | apply consumes_pure
    | apply consumes_char
    | apply consumes_consumedP
    | apply consumes_bind
    | intro _

theorem consumes_labels : Consumes labels := by
  unfold labels
  repeat'
    first
    | exact consumes_label
    | apply consumes_pure
    | apply consumes_char
    | apply consumes_consumedP
    | apply consumes_sepList0
    | apply consumes_bind
    | intro _

theorem consumes_exemplar : Consumes exemplar := by
  unfold exemplar
  repeat'
    first
    | exact consumes_labels
    | exact consumes_number
    | exact consumes_timestamp
    | apply consumes_pure
    | apply consumes_char
    | apply consumes_opt
    | apply consumes_consumedP
    | apply consumes_bind
    | intro _

theorem consumes_sample : Consumes sample := by
  unfold sample
  repeat'
    first
    | exact consumes_metricname
    | exact consumes_labels
    | exact consumes_number
    | exact consumes_timestamp
    | exact consumes_exemplar
    | apply consumes_pure
    | apply consumes_char
    | apply consumes_opt
    | apply consumes_consumedP
    | apply consumes_bind
    | intro _

theorem consumes_metric : Consumes metric := by
  unfold metric
  repeat'
    first
    | exact consumes_sample
    | apply consumes_pure
    | apply consumes_consumedP
    | apply consumes_bind
    | intro _

theorem consumes_metric_type : Consumes metric_type := by
  unfold metric_type
  repeat'
    first
    | apply consumes_pure
    | apply consumes_tag
    | apply consumes_alt2
    | apply consumes_bind
    | intro _

theorem consumes_metric_descriptor : Consumes metric_descriptor := by
  unfold metric_descriptor
  repeat'
    first
    | exact consumes_metricname
    | exact consumes_metric_type
    | exact consumes_help_escaped_string
    | apply consumes_pure
    | apply consumes_char
    | apply consumes_tag
    | apply consumes_take_while
    | apply consumes_alt2
    | apply consumes_consumedP
    | apply consumes_bind
    | intro _

theorem consumes_metricfamily : Consumes metricfamily := by
  unfold metricfamily
  repeat'
    first
    | exact consumes_metric_descriptor
    | exact consumes_metric
    | apply consumes_pure
    | apply consumes_consumedP
    | apply consumes_many0
    | apply consumes_many1
    | apply consumes_alt2
    | apply consumes_bind
    | intro _

theorem consumes_metricset : Consumes metricset := by
  unfold metricset
  repeat'
    first
    | exact consumes_metricfamily
    | apply consumes_pure
    | apply consumes_consumedP
    | apply consumes_many0
    | apply consumes_bind
    | intro _

theorem lt_char (c : Char) : ConsumesLt (char c) := by
  intro i r a h
  unfold char at h
  split at h
  · split at h
    · cases h; simp
    · cases h
  · cases h

theorem lt_satisfy (f : Char → Bool) : ConsumesLt (satisfy f) := by
  intro i r a h
  unfold satisfy at h
  split at h
  · split at h
    · cases h; simp
    · cases h
  · cases h

theorem lt_bind_left {p : Parser α} {f : α → Parser β}
    (hp : ConsumesLt p) (hf : ∀ a, Consumes (f a)) : ConsumesLt (p >>= f) := by
  intro i r b h
  have h' : Parser.bind p f i = .ok r b := h
  unfold Parser.bind at h'
  split at h'
  next r1 a hp' =>
    exact Nat.lt_of_le_of_lt ((hf a _ _ _ h').length_le) (hp _ _ _ hp')
  next => cases h'
  next => cases h'

theorem lt_bind_right {p : Parser α} {f : α → Parser β}
    (hp : Consumes p) (hf : ∀ a, ConsumesLt (f a)) : ConsumesLt (p >>= f) := by
  intro i r b h
  have h' : Parser.bind p f i = .ok r b := h
  unfold Parser.bind at h'
  split at h'
  next r1 a hp' =>
    exact Nat.lt_of_lt_of_le (hf a _ _ _ h') ((hp _ _ _ hp').length_le)
  next => cases h'
  next => cases h'

theorem lt_alt2 {p q : Parser α} (hp : ConsumesLt p) (hq : ConsumesLt q) :
    ConsumesLt (alt2 p q) := by
  intro i r a h
  unfold alt2 at h
  cases hp' : p i with
  | ok r1 b =>
    rw [hp'] at h
    have h2 : PRes.ok r1 b = PRes.ok r a := h
    cases h2
    exact hp _ _ _ hp'
  | err =>
    rw [hp'] at h
    exact hq _ _ _ h
  | fail =>
    rw [hp'] at h
    have h2 : (PRes.fail : PRes α) = PRes.ok r a := h
    cases h2

theorem lt_recognizeP {p : Parser α} (hp : ConsumesLt p) : ConsumesLt (recognizeP p) := by
  intro i r a h
  unfold recognizeP at h
  split at h
  next hp' => cases h; exact hp _ _ _ hp'
  next => cases h
  next => cases h

theorem lt_consumedP {p : Parser α} (hp : ConsumesLt p) : ConsumesLt (consumedP p) := by
  intro i r a h
  unfold consumedP at h
  split at h
  next hp' => cases h; exact hp _ _ _ hp'
  next => cases h
  next => cases h

theorem lt_many1 {p : Parser α} (hlt : ConsumesLt p) (hp : Consumes p) :
    ConsumesLt (many1 p) := by
  intro i r xs h
  unfold many1 at h
  split at h
  next => cases h
  next => cases h
  next r1 a hp' =>
    split at h
    next hm =>
      cases h
      exact Nat.lt_of_le_of_lt (consumes_many0 hp _ _ _ hm).length_le (hlt _ _ _ hp')
    next => cases h
    next => cases h

theorem lt_fold_many1 {p : Parser α} (hlt : ConsumesLt p) (hp : Consumes p) :
    ConsumesLt (fold_many1 p) := by
  intro i r a h
  unfold fold_many1 at h
  split at h
  next hm => cases h; exact lt_many1 hlt hp _ _ _ hm
  next => cases h
  next => cases h

theorem nf_pure (a : α) : NoFail (pure a : Parser α) := by
  intro i h
  cases h

theorem nf_char (c : Char) : NoFail (char c) := by
  intro i h
  unfold char at h
  split at h
  · split at h <;> cases h
  · cases h

theorem nf_satisfy (f : Char → Bool) : NoFail (satisfy f) := by
  intro i h
  unfold satisfy at h
  split at h
  · split at h <;> cases h
  · cases h

theorem nf_bind {p : Parser α} {f : α → Parser β}
    (hp : NoFail p) (hf : ∀ a, NoFail (f a)) : NoFail (p >>= f) := by
  intro i h
  have h' : Parser.bind p f i = .fail := h
  unfold Parser.bind at h'
  split at h'
  next a hp' => exact hf a _ h'
  next => cases h'
  next hp' => exact hp _ hp'

theorem nf_alt2 {p q : Parser α} (hp : NoFail p) (hq : NoFail q) : NoFail (alt2 p q) := by
  intro i h
  unfold alt2 at h
  cases hp' : p i with
  | ok r1 b => rw [hp'] at h; exact PRes.noConfusion h
  | err => rw [hp'] at h; exact hq _ h
  | fail => exact hp _ hp'

theorem nf_recognizeP {p : Parser α} (hp : NoFail p) : NoFail (recognizeP p) := by
  intro i h
  unfold recognizeP at h
  split at h
  next => cases h
  next => cases h
  next hp' => exact hp _ hp'

theorem nf_consumedP {p : Parser α} (hp : NoFail p) : NoFail (consumedP p) := by
  intro i h
  unfold consumedP at h
  split at h
  next => cases h
  next => cases h
  next hp' => exact hp _ hp'

theorem nf_many0Go {p : Parser α} (hp : NoFail p) :
    ∀ fuel i, many0Go p fuel i ≠ .fail := by
  intro fuel
  induction fuel with
  | zero => intro i h; cases h
  | succ n ih =>
    intro i h
    unfold many0Go at h
    split at h
    next => cases h
    next hfail => exact hp _ hfail
    next r1 a hp' =>
      split at h
      · split at h
        next => cases h
        next => cases h
        next hrec => exact ih _ hrec
      · cases h

theorem nf_many0 {p : Parser α} (hp : NoFail p) : NoFail (many0 p) := by
  intro i h
  exact nf_many0Go hp _ _ h

theorem nf_many1 {p : Parser α} (hp : NoFail p) : NoFail (many1 p) := by
  intro i h
  unfold many1 at h
  split at h
  next => cases h
  next hfail => exact hp _ hfail
  next r1 a hp' =>
    split at h
    next => cases h
    next => cases h
    next hm => exact nf_many0 hp _ hm

theorem nf_fold_many1 {p : Parser α} (hp : NoFail p) : NoFail (fold_many1 p) := by
  intro i h
  unfold fold_many1 at h
  split at h
  next => cases h
  next => cases h
  next hm => exact nf_many1 hp _ hm

/-- The `many0` loop is fuel-irrelevant once the fuel exceeds the input
length: the zero-consumption guard makes each iteration shrink the input,
so nom's unbounded loop takes at most `length` iterations. -/
theorem many0Go_fuel {p : Parser α} :
    ∀ fuel1 fuel2 i, i.length < fuel1 → i.length < fuel2 →
      many0Go p fuel1 i = many0Go p fuel2 i := by
  intro fuel1
  induction fuel1 with
  | zero => intro fuel2 i h1 h2; exact absurd h1 (Nat.not_lt_zero _)
  | succ n ih =>
    intro fuel2 i h1 h2
    cases fuel2 with
    | zero => exact absurd h2 (Nat.not_lt_zero _)
    | succ m =>
      unfold many0Go
      cases hp' : p i with
      | err => rfl
      | fail => rfl
      | ok r1 a =>
        by_cases hl : r1.length < i.length
        · have hrec : many0Go p n r1 = many0Go p m r1 :=
            ih m r1 (by omega) (by omega)
          simp only [hl, if_true, hrec]
        · simp only [hl, if_false]

/-- If the inner parser always consumes on success and never hard-fails,
`many0` always succeeds (given enough fuel). -/
theorem many0Go_total {p : Parser α} (hlt : ConsumesLt p) (hnf : NoFail p) :
    ∀ fuel i, i.length < fuel → ∃ r xs, many0Go p fuel i = .ok r xs := by
  intro fuel
  induction fuel with
  | zero => intro i h; exact absurd h (Nat.not_lt_zero _)
  | succ n ih =>
    intro i hfuel
    unfold many0Go
    cases hp' : p i with
    | err => exact ⟨i, [], rfl⟩
    | fail => exact absurd hp' (hnf i)
    | ok r1 a =>
      have hl : r1.length < i.length := hlt _ _ _ hp'
      obtain ⟨r2, xs, hrec⟩ := ih r1 (by omega)
      refine ⟨r2, a :: xs, ?_⟩
      simp only [hl, if_true, hrec]

theorem take_append_cancel {s r : Input} : (s ++ r).take ((s ++ r).length - r.length) = s := by
  simp [List.length_append]

theorem consumedP_ok {p : Parser α} {i r : Input} {sa : Input × α}
    (h : consumedP p i = .ok r sa) :
    p i = .ok r sa.2 ∧ sa.1 = i.take (i.length - r.length) := by
  unfold consumedP at h
  split at h
  next hp' => cases h; exact ⟨hp', rfl⟩
  next => cases h
  next => cases h

/-- With a prefix-consuming inner parser, the span reported by `consumed`
is exactly the part of the input preceding the rest. -/
theorem consumedP_ok_span {p : Parser α} (hp : Consumes p) {i r : Input} {sa : Input × α}
    (h : consumedP p i = .ok r sa) : sa.1 ++ r = i := by
  obtain ⟨hpi, hspan⟩ := consumedP_ok h
  obtain ⟨s, hs⟩ := hp _ _ _ hpi
  rw [hspan, ← hs, take_append_cancel]

/-- Span completeness for the `many0`/`consumed` loop: the spans of the
collected elements concatenate to the consumed part of the input. -/
theorem many0Go_consumed_join {p : Parser α} (hp : Consumes p) :
    ∀ fuel i r xs, many0Go (consumedP p) fuel i = .ok r xs →
      (xs.map Prod.fst).flatten ++ r = i := by
  intro fuel
  induction fuel with
  | zero => intro i r xs h; cases h
  | succ n ih =>
    intro i r xs h
    unfold many0Go at h
    split at h
    next => cases h; simp
    next => cases h
    next r1 sa hp' =>
      split at h
      · split at h
        next hrec =>
          cases h
          have hspan := consumedP_ok_span hp hp'
          have hj := ih _ _ _ hrec
          rw [List.map_cons, List.flatten_cons, List.append_assoc, hj, hspan]
        next => cases h
        next => cases h
      · cases h

theorem many0_consumed_join {p : Parser α} (hp : Consumes p) :
    ∀ i r xs, many0 (consumedP p) i = .ok r xs → (xs.map Prod.fst).flatten ++ r = i :=
  fun i r xs h => many0Go_consumed_join hp _ i r xs h

theorem many1_consumed_join {p : Parser α} (hp : Consumes p) :
    ∀ i r xs, many1 (consumedP p) i = .ok r xs → (xs.map Prod.fst).flatten ++ r = i := by
  intro i r xs h
  unfold many1 at h
  split at h
  next => cases h
  next => cases h
  next r1 sa hp' =>
    split at h
    next hm =>
      cases h
      have hspan := consumedP_ok_span hp hp'
      have hj := many0_consumed_join hp _ _ _ hm
      rw [List.map_cons, List.flatten_cons, List.append_assoc, hj, hspan]
    next => cases h
    next => cases h

theorem many1_ne_nil {p : Parser α} :
    ∀ i r xs, many1 p i = .ok r xs → xs ≠ [] := by
  intro i r xs h
  unfold many1 at h
  split at h
  next => cases h
  next => cases h
  next r1 a hp' =>
    split at h
    next hm => cases h; simp
    next => cases h
    next => cases h

theorem pure_eval (a : α) (i : Input) : (pure a : Parser α) i = .ok i a := rfl

theorem bind_ok {p : Parser α} {f : α → Parser β} {i r : Input} {a : α}
    (h : p i = .ok r a) : (p >>= f) i = f a r := by
  show Parser.bind p f i = f a r
  unfold Parser.bind
  rw [h]

theorem bind_err {p : Parser α} {f : α → Parser β} {i : Input}
    (h : p i = .err) : (p >>= f) i = .err := by
  show Parser.bind p f i = .err
  unfold Parser.bind
  rw [h]

theorem bind_fail {p : Parser α} {f : α → Parser β} {i : Input}
    (h : p i = .fail) : (p >>= f) i = .fail := by
  show Parser.bind p f i = .fail
  unfold Parser.bind
  rw [h]

theorem alt2_ok {p q : Parser α} {i r : Input} {a : α}
    (h : p i = .ok r a) : alt2 p q i = .ok r a := by
  unfold alt2
  rw [h]

theorem alt2_err {p q : Parser α} {i : Input}
    (h : p i = .err) : alt2 p q i = q i := by
  unfold alt2
  rw [h]

theorem alt2_fail {p q : Parser α} {i : Input}
    (h : p i = .fail) : alt2 p q i = .fail := by
  unfold alt2
  rw [h]

theorem opt_ok {p : Parser α} {i r : Input} {a : α}
    (h : p i = .ok r a) : opt p i = .ok r (some a) := by
  unfold opt
  rw [h]

theorem opt_err {p : Parser α} {i : Input}
    (h : p i = .err) : opt p i = .ok i none := by
  unfold opt
  rw [h]

theorem opt_fail {p : Parser α} {i : Input}
    (h : p i = .fail) : opt p i = .fail := by
  unfold opt
  rw [h]

theorem cut_ok {p : Parser α} {i r : Input} {a : α}
    (h : p i = .ok r a) : cut p i = .ok r a := by
  unfold cut
  rw [h]

theorem cut_err {p : Parser α} {i : Input}
    (h : p i = .err) : cut p i = .fail := by
  unfold cut
  rw [h]

theorem char_cons_self (c : Char) (r : Input) : char c (c :: r) = .ok r c := by
  simp [char]

theorem char_cons_ne {x c : Char} (h : ¬ x = c) (r : Input) : char c (x :: r) = .err := by
  simp [char, h]

theorem char_nil (c : Char) : char c [] = .err := rfl

theorem digit1_ok {s : Input} (h : hasDigits s = true) :
    digit1 s = .ok (dropDigits s) (s.takeWhile Char.isDigit) := by
  unfold hasDigits at h
  rw [Bool.not_eq_true'] at h
  unfold digit1 dropDigits
  simp [h]

theorem digit1_err {s : Input} (h : hasDigits s = false) : digit1 s = .err := by
  unfold hasDigits at h
  rw [Bool.not_eq_false'] at h
  unfold digit1
  simp [h]

theorem dropDigits_of_none {s : Input} (h : hasDigits s = false) : dropDigits s = s := by
  unfold hasDigits at h
  rw [Bool.not_eq_false'] at h
  unfold dropDigits
  rw [List.isEmpty_iff.mp h]
  simp

theorem signOpt_eq (i : Input) :
    ∃ v, opt (alt2 (char '+') (char '-')) i = .ok (signSkip i) v := by
  cases i with
  | nil => exact ⟨none, rfl⟩
  | cons c r =>
    by_cases h1 : c = '+'
    · subst h1
      exact ⟨some '+', by simp [opt, alt2, char, signSkip]⟩
    · by_cases h2 : c = '-'
      · subst h2
        exact ⟨some '-', by simp [opt, alt2, char, signSkip]⟩
      · exact ⟨none, by simp [opt, alt2, char, signSkip, h1, h2]⟩

theorem float_exp_eq (r : Input) :
    (do
      _ ← opt (do
        _ ← alt2 (char 'e') (char 'E')
        _ ← opt (alt2 (char '+') (char '-'))
        _ ← cut digit1
        pure ())
      pure () : Parser Unit) r = specNomFloatExpRest r := by
  cases r with
  | nil => rfl
  | cons c r1 =>
    obtain ⟨v, hv⟩ := signOpt_eq r1
    by_cases he : c = 'e'
    case pos =>
      subst he
      by_cases hd : hasDigits (signSkip r1)
      case pos =>
        have hok : (do
            _ ← alt2 (char 'e') (char 'E')
            _ ← opt (alt2 (char '+') (char '-'))
            _ ← cut digit1
            pure () : Parser Unit) ('e' :: r1)
            = .ok (dropDigits (signSkip r1)) () := by
          rw [bind_ok (alt2_ok (char_cons_self 'e' r1)), bind_ok hv,
            bind_ok (cut_ok (digit1_ok hd))]
          exact pure_eval _ _
        rw [bind_ok (opt_ok hok)]
        simp [specNomFloatExpRest, hd, pure_eval]
      case neg =>
        have hfail : (do
            _ ← alt2 (char 'e') (char 'E')
            _ ← opt (alt2 (char '+') (char '-'))
            _ ← cut digit1
            pure () : Parser Unit) ('e' :: r1) = .fail := by
          rw [bind_ok (alt2_ok (char_cons_self 'e' r1)), bind_ok hv,
            bind_fail (cut_err (digit1_err (Bool.eq_false_iff.mpr hd)))]
        rw [bind_fail (opt_fail hfail)]
        simp [specNomFloatExpRest, hd]
    case neg =>
      by_cases hE : c = 'E'
      case pos =>
        subst hE
        by_cases hd : hasDigits (signSkip r1)
        case pos =>
          have hok : (do
              _ ← alt2 (char 'e') (char 'E')
              _ ← opt (alt2 (char '+') (char '-'))
              _ ← cut digit1
              pure () : Parser Unit) ('E' :: r1)
              = .ok (dropDigits (signSkip r1)) () := by
            rw [bind_ok ((alt2_err (char_cons_ne he r1)).trans (char_cons_self 'E' r1)),
              bind_ok hv, bind_ok (cut_ok (digit1_ok hd))]
            exact pure_eval _ _
          rw [bind_ok (opt_ok hok)]
          simp [specNomFloatExpRest, hd, pure_eval]
        case neg =>
          have hfail : (do
              _ ← alt2 (char 'e') (char 'E')
              _ ← opt (alt2 (char '+') (char '-'))
              _ ← cut digit1
              pure () : Parser Unit) ('E' :: r1) = .fail := by
            rw [bind_ok ((alt2_err (char_cons_ne he r1)).trans (char_cons_self 'E' r1)),
              bind_ok hv, bind_fail (cut_err (digit1_err (Bool.eq_false_iff.mpr hd)))]
          rw [bind_fail (opt_fail hfail)]
          simp [specNomFloatExpRest, hd]
      case neg =>
        have herr : (do
            _ ← alt2 (char 'e') (char 'E')
            _ ← opt (alt2 (char '+') (char '-'))
            _ ← cut digit1
            pure () : Parser Unit) (c :: r1) = .err := by
          rw [bind_err ((alt2_err (char_cons_ne he r1)).trans (char_cons_ne hE r1))]
        rw [bind_ok (opt_err herr)]
        simp [specNomFloatExpRest, he, hE, pure_eval]

theorem consumes_exposition : Consumes exposition := by
  unfold exposition
  repeat'
    first
    | exact consumes_metricset
    | apply consumes_pure
    | apply consumes_char
    | apply consumes_tag
    | apply consumes_opt
    | apply consumes_consumedP
    | apply consumes_bind
    | intro _


theorem float_mantA_eq {s : Input} (hd : hasDigits s = true) :
    (do
      _ ← digit1
      _ ← opt (do
        _ ← char '.'
        _ ← opt digit1
        pure ())
      pure () : Parser Unit) s = .ok (specFracSkip (dropDigits s)) () := by
  simp only [bind_ok (digit1_ok hd)]
  cases hm : dropDigits s with
  | nil =>
    rw [bind_ok (opt_err (bind_err (char_nil '.')))]
    simp [specFracSkip, pure_eval]
  | cons c2 r2 =>
    by_cases hc2 : c2 = '.'
    case pos =>
      subst hc2
      by_cases hd2 : hasDigits r2
      case pos =>
        have hdot : (do
            _ ← char '.'
            _ ← opt digit1
            pure () : Parser Unit) ('.' :: r2) = .ok (dropDigits r2) () := by
          simp only [bind_ok (char_cons_self '.' r2), bind_ok (opt_ok (digit1_ok hd2))]
          exact pure_eval _ _
        rw [bind_ok (opt_ok hdot)]
        simp [specFracSkip, pure_eval]
      case neg =>
        have hd2' : hasDigits r2 = false := Bool.eq_false_iff.mpr hd2
        have hdot : (do
            _ ← char '.'
            _ ← opt digit1
            pure () : Parser Unit) ('.' :: r2) = .ok r2 () := by
          simp only [bind_ok (char_cons_self '.' r2), bind_ok (opt_err (digit1_err hd2'))]
          exact pure_eval _ _
        rw [bind_ok (opt_ok hdot)]
        simp [specFracSkip, dropDigits_of_none hd2', pure_eval]
    case neg =>
      rw [bind_ok (opt_err (bind_err (char_cons_ne hc2 r2)))]
      simp [specFracSkip, hc2, pure_eval]

theorem float_core_eq (i : Input) :
    (do
      _ ← opt (alt2 (char '+') (char '-'))
      _ ← alt2
        (do
          _ ← digit1
          _ ← opt (do
            _ ← char '.'
            _ ← opt digit1
            pure ())
          pure ())
        (do
          _ ← char '.'
          _ ← digit1
          pure ())
      _ ← opt (do
        _ ← alt2 (char 'e') (char 'E')
        _ ← opt (alt2 (char '+') (char '-'))
        _ ← cut digit1
        pure ())
      pure () : Parser Unit) i = specNomFloatRest i := by
  obtain ⟨v, hv⟩ := signOpt_eq i
  simp only [bind_ok hv]
  by_cases hd : hasDigits (signSkip i)
  case pos =>
    simp only [bind_ok (alt2_ok (float_mantA_eq hd))]
    have hr : specNomFloatRest i
        = specNomFloatExpRest (specFracSkip (dropDigits (signSkip i))) := by
      simp [specNomFloatRest, hd]
    rw [hr]
    exact float_exp_eq _
  case neg =>
    have hd' : hasDigits (signSkip i) = false := Bool.eq_false_iff.mpr hd
    have hAerr : (do
        _ ← digit1
        _ ← opt (do
          _ ← char '.'
          _ ← opt digit1
          pure ())
        pure () : Parser Unit) (signSkip i) = .err := bind_err (digit1_err hd')
    cases hm : signSkip i with
    | nil =>
      rw [hm] at hAerr hd'
      rw [bind_err ((alt2_err hAerr).trans (bind_err (char_nil '.')))]
      simp [specNomFloatRest, hm, hd']
    | cons c r2 =>
      rw [hm] at hAerr hd'
      by_cases hc : c = '.'
      case pos =>
        subst hc
        by_cases hd2 : hasDigits r2
        case pos =>
          have hB : (do
              _ ← char '.'
              _ ← digit1
              pure () : Parser Unit) ('.' :: r2) = .ok (dropDigits r2) () := by
            simp only [bind_ok (char_cons_self '.' r2), bind_ok (digit1_ok hd2)]
            exact pure_eval _ _
          simp only [bind_ok ((alt2_err hAerr).trans hB)]
          have hr : specNomFloatRest i = specNomFloatExpRest (dropDigits r2) := by
            simp [specNomFloatRest, hm, hd', hd2]
          rw [hr]
          exact float_exp_eq _
        case neg =>
          have hd2' : hasDigits r2 = false := Bool.eq_false_iff.mpr hd2
          have hB : (do
              _ ← char '.'
              _ ← digit1
              pure () : Parser Unit) ('.' :: r2) = .err := by
            simp only [bind_ok (char_cons_self '.' r2)]
            exact bind_err (digit1_err hd2')
          rw [bind_err ((alt2_err hAerr).trans hB)]
          simp [specNomFloatRest, hm, hd', hd2']
      case neg =>
        have hB : (do
            _ ← char '.'
            _ ← digit1
            pure () : Parser Unit) (c :: r2) = .err := bind_err (char_cons_ne hc r2)
        rw [bind_err ((alt2_err hAerr).trans hB)]
        simp [specNomFloatRest, hm, hd', hc]

theorem realnumber_eq_spec (i : Input) : realnumber i = specNomFloat i := by
  unfold realnumber recognize_float specNomFloat recognizeP
  rw [float_core_eq i]


theorem bind_ok_inv {p : Parser α} {f : α → Parser β} {i r : Input} {b : β}
    (h : (p >>= f) i = .ok r b) : ∃ r1 a, p i = .ok r1 a ∧ f a r1 = .ok r b := by
  have h2 : Parser.bind p f i = .ok r b := h
  unfold Parser.bind at h2
  split at h2
  next r1 a hp' => exact ⟨r1, a, hp', h2⟩
  next => cases h2
  next => cases h2

theorem alt2_ok_inv {p q : Parser α} {i r : Input} {a : α}
    (h : alt2 p q i = .ok r a) : p i = .ok r a ∨ (p i = .err ∧ q i = .ok r a) := by
  unfold alt2 at h
  cases hp' : p i with
  | ok r1 b =>
    rw [hp'] at h
    have h2 : PRes.ok r1 b = PRes.ok r a := h
    cases h2
    exact Or.inl rfl
  | err =>
    rw [hp'] at h
    exact Or.inr ⟨rfl, h⟩
  | fail =>
    rw [hp'] at h
    have h2 : (PRes.fail : PRes α) = PRes.ok r a := h
    cases h2

theorem pure_ok_inv {a b : α} {i r : Input} (h : (pure a : Parser α) i = .ok r b) :
    r = i ∧ b = a := by
  have h2 : PRes.ok i a = PRes.ok r b := h
  cases h2
  exact ⟨rfl, rfl⟩

theorem consumedP_of_ok {p : Parser α} {i r : Input} {a : α} (h : p i = .ok r a) :
    consumedP p i = .ok r (i.take (i.length - r.length), a) := by
  unfold consumedP
  rw [h]

theorem lt_metricname : ConsumesLt metricname := by
  unfold metricname
  exact lt_recognizeP (lt_bind_left (lt_satisfy _)
    (fun _ => consumes_bind (consumes_fold_many0 (consumes_satisfy _))
      (fun _ => consumes_pure _)))

theorem lt_escaped_string_fragment : ConsumesLt escaped_string_fragment := by
  unfold escaped_string_fragment
  apply lt_alt2
  · exact lt_bind_left
      (lt_recognizeP (lt_fold_many1
        (lt_alt2 (lt_bind_left (lt_satisfy _) (fun _ => consumes_pure _))
          (lt_bind_left (lt_char _)
            (fun _ => consumes_bind (consumes_satisfy _) (fun _ => consumes_pure _))))
        (consumes_alt2 (consumes_bind (consumes_satisfy _) (fun _ => consumes_pure _))
          (consumes_bind (consumes_char _)
            (fun _ => consumes_bind (consumes_satisfy _) (fun _ => consumes_pure _))))))
      (fun _ => consumes_pure _)
  · apply lt_alt2
    · exact lt_bind_left (lt_char _)
        (fun _ => consumes_bind (consumes_char _) (fun _ => consumes_pure _))
    · apply lt_alt2
      · exact lt_bind_left (lt_char _)
          (fun _ => consumes_bind (consumes_char _) (fun _ => consumes_pure _))
      · exact lt_bind_left (lt_char _)
          (fun _ => consumes_bind (consumes_char _) (fun _ => consumes_pure _))

theorem nf_escaped_string_fragment : NoFail escaped_string_fragment := by
  unfold escaped_string_fragment
  apply nf_alt2
  · exact nf_bind
      (nf_recognizeP (nf_fold_many1 (nf_alt2
        (nf_bind (nf_satisfy _) (fun _ => nf_pure _))
        (nf_bind (nf_char _) (fun _ => nf_bind (nf_satisfy _) (fun _ => nf_pure _))))))
      (fun _ => nf_pure _)
  · apply nf_alt2
    · exact nf_bind (nf_char _) (fun _ => nf_bind (nf_char _) (fun _ => nf_pure _))
    · apply nf_alt2
      · exact nf_bind (nf_char _) (fun _ => nf_bind (nf_char _) (fun _ => nf_pure _))
      · exact nf_bind (nf_char _) (fun _ => nf_bind (nf_char _) (fun _ => nf_pure _))

theorem lt_help_escaped_string_fragment : ConsumesLt help_escaped_string_fragment := by
  unfold help_escaped_string_fragment
  apply lt_alt2
  · exact lt_bind_left
      (lt_recognizeP (lt_fold_many1
        (lt_alt2 (lt_bind_left (lt_satisfy _) (fun _ => consumes_pure _))
          (lt_bind_left (lt_char _)
            (fun _ => consumes_bind (consumes_satisfy _) (fun _ => consumes_pure _))))
        (consumes_alt2 (consumes_bind (consumes_satisfy _) (fun _ => consumes_pure _))
          (consumes_bind (consumes_char _)
            (fun _ => consumes_bind (consumes_satisfy _) (fun _ => consumes_pure _))))))
      (fun _ => consumes_pure _)
  · apply lt_alt2
    · exact lt_bind_left (lt_char _)
        (fun _ => consumes_bind (consumes_char _) (fun _ => consumes_pure _))
    · exact lt_bind_left (lt_char _)
        (fun _ => consumes_bind (consumes_char _) (fun _ => consumes_pure _))

theorem nf_help_escaped_string_fragment : NoFail help_escaped_string_fragment := by
  unfold help_escaped_string_fragment
  apply nf_alt2
  · exact nf_bind
      (nf_recognizeP (nf_fold_many1 (nf_alt2
        (nf_bind (nf_satisfy _) (fun _ => nf_pure _))
        (nf_bind (nf_char _) (fun _ => nf_bind (nf_satisfy _) (fun _ => nf_pure _))))))
      (fun _ => nf_pure _)
  · apply nf_alt2
    · exact nf_bind (nf_char _) (fun _ => nf_bind (nf_char _) (fun _ => nf_pure _))
    · exact nf_bind (nf_char _) (fun _ => nf_bind (nf_char _) (fun _ => nf_pure _))

theorem escaped_string_total (i : Input) : ∃ r es, escaped_string i = .ok r es := by
  obtain ⟨r, xs, h⟩ := many0Go_total (lt_consumedP lt_escaped_string_fragment)
    (nf_consumedP nf_escaped_string_fragment) (i.length + 1) i (Nat.lt_succ_self _)
  have h0 : many0 (consumedP escaped_string_fragment) i = .ok r xs := h
  refine ⟨r, EscapedString.mk xs, ?_⟩
  show (many0 (consumedP escaped_string_fragment)
    >>= fun fs => pure (EscapedString.mk fs)) i = _
  rw [bind_ok h0]
  exact pure_eval _ _

theorem help_escaped_string_total (i : Input) : ∃ r hs, help_escaped_string i = .ok r hs := by
  obtain ⟨r, xs, h⟩ := many0Go_total (lt_consumedP lt_help_escaped_string_fragment)
    (nf_consumedP nf_help_escaped_string_fragment) (i.length + 1) i (Nat.lt_succ_self _)
  have h0 : many0 (consumedP help_escaped_string_fragment) i = .ok r xs := h
  refine ⟨r, HelpEscapedString.mk xs, ?_⟩
  show (many0 (consumedP help_escaped_string_fragment)
    >>= fun fs => pure (HelpEscapedString.mk fs)) i = _
  rw [bind_ok h0]
  exact pure_eval _ _

theorem lt_sample : ConsumesLt sample := by
  unfold sample
  apply lt_bind_left lt_metricname
  intro _
  repeat'
    first
    | exact consumes_labels
    | exact consumes_number
    | exact consumes_timestamp
    | exact consumes_exemplar
    | apply consumes_pure
    | apply consumes_char
    | apply consumes_opt
    | apply consumes_consumedP
    | apply consumes_bind
    | intro _

theorem lt_metric : ConsumesLt metric := by
  unfold metric
  exact lt_bind_left (lt_consumedP lt_sample) (fun _ => consumes_pure _)

theorem lt_metric_descriptor : ConsumesLt metric_descriptor := by
  unfold metric_descriptor
  apply lt_alt2
  · apply lt_bind_left (lt_char _)
    intro _
    repeat'
      first
      | exact consumes_metricname
      | exact consumes_metric_type
      | apply consumes_pure
      | apply consumes_char
      | apply consumes_tag
      | apply consumes_consumedP
      | apply consumes_bind
      | intro _
  · apply lt_alt2
    · apply lt_bind_left (lt_char _)
      intro _
      repeat'
        first
        | exact consumes_metricname
        | exact consumes_help_escaped_string
        | apply consumes_pure
        | apply consumes_char
        | apply consumes_tag
        | apply consumes_consumedP
        | apply consumes_bind
        | intro _
    · apply lt_bind_left (lt_char _)
      intro _
      repeat'
        first
        | exact consumes_metricname
        | apply consumes_pure
        | apply consumes_char
        | apply consumes_tag
        | apply consumes_take_while
        | apply consumes_bind
        | intro _

theorem lt_metricfamily : ConsumesLt metricfamily := by
  unfold metricfamily
  apply lt_alt2
  · exact lt_bind_left
      (lt_many1 (lt_consumedP lt_metric_descriptor)
        (consumes_consumedP consumes_metric_descriptor))
      (fun _ => consumes_bind (consumes_many0 (consumes_consumedP consumes_metric))
        (fun _ => consumes_pure _))
  · exact lt_bind_right (consumes_many0 (consumes_consumedP consumes_metric_descriptor))
      (fun _ => lt_bind_left (lt_many1 (lt_consumedP lt_metric)
          (consumes_consumedP consumes_metric))
        (fun _ => consumes_pure _))


/-- Claim C1 (code behaviour at the failing input): on "infinity" (with or
without sign) the number parser consumes only the three bytes of "inf" —
`tag_no_case("inf")` is tried before `tag_no_case("infinity")`, so the longer
keyword alternative is unreachable and the matched span is not the whole
signed token. -/
theorem C1_number_infinity_behavior :
    number (str "infinity") = .ok (str "inity") (str "inf") ∧
    number (str "+infinity") = .ok (str "inity") (str "+inf") ∧
    number (str "infinity") ≠ .ok [] (str "infinity") := by
  refine ⟨by decide, by decide, by decide⟩

/-- Claim C2 counterexample: exposition succeeds on "# EOF\nx" while leaving
the byte "x" unconsumed, so a successful result need not have an empty
remainder and no TrailingInput failure is raised. -/
theorem C2_exposition_counterexample :
    exposition (str "# EOF\nx") = .ok (str "x") (Exposition.mk ([], Metricset.mk [])) := by
  decide

/-- Claim C2 (amended): when `exposition` succeeds it has consumed a prefix
of the buffer and simply returns the unconsumed remainder to the caller;
there is no trailing-input check, so for every trailing `t` the input
`"# EOF\n" ++ t` parses successfully with remainder `t`. -/
theorem C2_exposition_amended :
    (∀ i r e, exposition i = .ok r e → r.IsSuffix i) ∧
    (∀ t : Input, exposition ('#' :: ' ' :: 'E' :: 'O' :: 'F' :: '\n' :: t)
        = .ok t (Exposition.mk ([], Metricset.mk []))) := by
  constructor
  · exact fun i r e h => consumes_exposition i r e h
  · intro t
    have hms : metricset ('#' :: ' ' :: 'E' :: 'O' :: 'F' :: '\n' :: t)
        = .ok ('#' :: ' ' :: 'E' :: 'O' :: 'F' :: '\n' :: t) (Metricset.mk []) := rfl
    have hcons : consumedP metricset ('#' :: ' ' :: 'E' :: 'O' :: 'F' :: '\n' :: t)
        = .ok ('#' :: ' ' :: 'E' :: 'O' :: 'F' :: '\n' :: t) ([], Metricset.mk []) := by
      rw [consumedP_of_ok hms]
      simp
    have hhash : char HASH ('#' :: ' ' :: 'E' :: 'O' :: 'F' :: '\n' :: t)
        = .ok (' ' :: 'E' :: 'O' :: 'F' :: '\n' :: t) '#' := rfl
    have hsp : char SP (' ' :: 'E' :: 'O' :: 'F' :: '\n' :: t)
        = .ok ('E' :: 'O' :: 'F' :: '\n' :: t) ' ' := rfl
    have heof : tag EOF ('E' :: 'O' :: 'F' :: '\n' :: t)
        = .ok ('\n' :: t) ['E', 'O', 'F'] := rfl
    have hlf : opt (char LF) ('\n' :: t) = .ok t (some '\n') := rfl
    show (consumedP metricset >>= fun m =>
      char HASH >>= fun _ =>
      char SP >>= fun _ =>
      tag EOF >>= fun _ =>
      opt (char LF) >>= fun _ =>
      pure (Exposition.mk m)) ('#' :: ' ' :: 'E' :: 'O' :: 'F' :: '\n' :: t) = _
    simp only [bind_ok hcons, bind_ok hhash, bind_ok hsp, bind_ok heof, bind_ok hlf]
    exact pure_eval _ _

/-- Witness for the amended C2: on "# EOF\n# EOF\n" exposition succeeds and
the (non-empty) remainder "# EOF\n" is a suffix of the input. -/
theorem C2_exposition_amended_witness :
    List.IsSuffix (str "# EOF\n") (str "# EOF\n# EOF\n") :=
  C2_exposition_amended.1 (str "# EOF\n# EOF\n") (str "# EOF\n")
    (Exposition.mk ([], Metricset.mk [])) (by decide)

/-- Claim C3 (code behaviour at the failing input): label_name rejects a
leading underscore ("_a" errors), and rejects '_' even as a continuation
character ("a_b" matches only "a"), while metricname right next to it does
accept the underscore. -/
theorem C3_label_name_behavior :
    label_name (str "_a") = .err ∧
    label_name (str "a_b") = .ok (str "_b") (str "a") ∧
    metricname (str "_a") = .ok [] (str "_a") := by
  refine ⟨by decide, by decide, by decide⟩

/-- Claim C4: every successfully parsed Metricfamily contains at least one
descriptor or at least one sample, and the consumed input decomposes as all
descriptor spans followed by all sample spans followed by the remainder —
descriptors always precede samples. -/
theorem C4_metricfamily_invariant :
    ∀ i r mf, metricfamily i = .ok r mf →
      (mf.metric_descriptor ≠ [] ∨ mf.metric ≠ []) ∧
      (mf.metric_descriptor.map Prod.fst).flatten
        ++ ((mf.metric.map Prod.fst).flatten ++ r) = i := by
  intro i r mf h
  rcases alt2_ok_inv h with h1 | ⟨-, h1⟩
  · obtain ⟨r1, d, hd, h2⟩ := bind_ok_inv h1
    obtain ⟨r2, m, hm, h3⟩ := bind_ok_inv h2
    obtain ⟨hr, hmf⟩ := pure_ok_inv h3
    subst hmf
    subst hr
    refine ⟨Or.inl (many1_ne_nil _ _ _ hd), ?_⟩
    have hjd := many1_consumed_join consumes_metric_descriptor _ _ _ hd
    have hjm := many0_consumed_join consumes_metric _ _ _ hm
    show (d.map Prod.fst).flatten ++ ((m.map Prod.fst).flatten ++ r) = i
    rw [hjm, hjd]
  · obtain ⟨r1, d, hd, h2⟩ := bind_ok_inv h1
    obtain ⟨r2, m, hm, h3⟩ := bind_ok_inv h2
    obtain ⟨hr, hmf⟩ := pure_ok_inv h3
    subst hmf
    subst hr
    refine ⟨Or.inr (many1_ne_nil _ _ _ hm), ?_⟩
    have hjd := many0_consumed_join consumes_metric_descriptor _ _ _ hd
    have hjm := many1_consumed_join consumes_metric _ _ _ hm
    show (d.map Prod.fst).flatten ++ ((m.map Prod.fst).flatten ++ r) = i
    rw [hjm, hjd]

/-- Witness for C4 at the data-only family "a 1\n" (no descriptor, one sample). -/
theorem C4_metricfamily_invariant_witness :
    (([] : List (Input × MetricDescriptor)) ≠ [] ∨
      [(str "a 1\n", Metric.mk [(str "a 1\n",
        Sample.mk (str "a") none (str "1") none none)])] ≠ []) ∧
    (([] : List (Input × MetricDescriptor)).map Prod.fst).flatten
      ++ (([(str "a 1\n", Metric.mk [(str "a 1\n",
          Sample.mk (str "a") none (str "1") none none)])].map Prod.fst).flatten
        ++ ([] : Input)) = str "a 1\n" :=
  C4_metricfamily_invariant (str "a 1\n") []
    (Metricfamily.mk [] [(str "a 1\n", Metric.mk [(str "a 1\n",
      Sample.mk (str "a") none (str "1") none none)])]) (by decide)

/-- Claim C5: for both escape dialects, concatenating the raw span carried
by each fragment reproduces byte-for-byte the consumed part of the input. -/
theorem C5_fragment_roundtrip :
    (∀ i r es, escaped_string i = .ok r es →
      (es.fragments.map Prod.fst).flatten ++ r = i) ∧
    (∀ i r hs, help_escaped_string i = .ok r hs →
      (hs.fragments.map Prod.fst).flatten ++ r = i) := by
  constructor
  · intro i r es h
    obtain ⟨r1, fs, hm, hp⟩ := bind_ok_inv h
    obtain ⟨hr, hes⟩ := pure_ok_inv hp
    subst hes
    subst hr
    exact many0_consumed_join consumes_escaped_string_fragment _ _ _ hm
  · intro i r hs h
    obtain ⟨r1, fs, hm, hp⟩ := bind_ok_inv h
    obtain ⟨hr, hhs⟩ := pure_ok_inv hp
    subst hhs
    subst hr
    exact many0_consumed_join consumes_help_escaped_string_fragment _ _ _ hm

/-- Witness for C5 at the input "ab" (one Normal fragment, empty remainder). -/
theorem C5_fragment_roundtrip_witness :
    ([(str "ab", EscapedStringFragment.Normal (str "ab"))].map Prod.fst).flatten
      ++ ([] : Input) = str "ab" :=
  C5_fragment_roundtrip.1 (str "ab") []
    (EscapedString.mk [(str "ab", EscapedStringFragment.Normal (str "ab"))]) (by decide)

/-- Claim C6: the help dialect folds a bare quote into a Normal fragment and
consumes all of `foo"bar`, whereas in a label value the first unescaped
quote ends the value, so `x="foo"bar"` parses as a label whose value is just
`foo` (with `bar"` left over). -/
theorem C6_dialect_difference :
    help_escaped_string (str "foo\"bar")
      = .ok [] (HelpEscapedString.mk [(str "foo\"bar",
          HelpEscapedStringFragment.Normal (str "foo\"bar"))]) ∧
    label (str "x=\"foo\"bar\"")
      = .ok (str "bar\"") (Label.mk (str "x") (str "foo",
          EscapedString.mk [(str "foo", EscapedStringFragment.Normal (str "foo"))])) := by
  refine ⟨by decide, by decide⟩

/-- Claim C7 counterexample: on "1." the realnumber recognizer consumes both
bytes, but "1." is not in the specified language (a dot must be followed by
digits there) while "1" is, so the returned span is not the longest prefix
belonging to the specified language. -/
theorem C7_realnumber_counterexample :
    realnumber (str "1.") = .ok [] (str "1.") ∧
    specRealLang (str "1.") = false ∧
    specRealLang (str "1") = true := by
  refine ⟨by decide, by decide, by decide⟩

/-- Claim C7 (amended): realnumber is nom 7's `recognize_float`: after an
optional sign it accepts either digits optionally followed by a dot and
*optional* fraction digits, or a dot followed by digits, and then an
optional exponent whose digits are mandatory once the marker `e`/`E` has
been read — in that case their absence aborts the parse (hard failure)
instead of backtracking; the span returned is everything before the
computed remainder. -/
theorem C7_realnumber_amended : ∀ i, realnumber i = specNomFloat i :=
  realnumber_eq_spec

/-- Claim C8: the five specified numeric literals are each accepted whole,
with the matched span identical to the input. -/
theorem C8_numeric_acceptance :
    number (str "23") = .ok [] (str "23") ∧
    number (str "0042") = .ok [] (str "0042") ∧
    number (str "1341298465647914") = .ok [] (str "1341298465647914") ∧
    number (str "03.123421") = .ok [] (str "03.123421") ∧
    number (str "1.89e-7") = .ok [] (str "1.89e-7") := by
  refine ⟨by decide, by decide, by decide, by decide, by decide⟩

/-- Claim C9: both escape decoders are total — on every input they succeed,
consuming a prefix (the rest is a suffix of the input) and never erroring —
and the empty label value x="" parses as a Label with zero fragments. -/
theorem C9_escaped_total :
    (∀ i, ∃ r es, escaped_string i = .ok r es ∧ r.IsSuffix i) ∧
    (∀ i, ∃ r hs, help_escaped_string i = .ok r hs ∧ r.IsSuffix i) ∧
    label (str "x=\"\"") = .ok [] (Label.mk (str "x") ([], EscapedString.mk [])) := by
  refine ⟨?_, ?_, by decide⟩
  · intro i
    obtain ⟨r, es, h⟩ := escaped_string_total i
    exact ⟨r, es, h, consumes_escaped_string _ _ _ h⟩
  · intro i
    obtain ⟨r, hs, h⟩ := help_escaped_string_total i
    exact ⟨r, hs, h, consumes_help_escaped_string _ _ _ h⟩

/-- Claim C10: a successful metricfamily parse always consumes at least one
byte, and consequently the zero-or-more metricfamily loop of metricset is
insensitive to any loop bound exceeding the input length — each iteration
strictly shrinks the input, so the loop terminates within length steps. -/
theorem C10_metricfamily_progress :
    (∀ i r mf, metricfamily i = .ok r mf → r.length < i.length) ∧
    (∀ fuel1 fuel2 i, i.length < fuel1 → i.length < fuel2 →
      many0Go (consumedP metricfamily) fuel1 i
        = many0Go (consumedP metricfamily) fuel2 i) :=
  ⟨fun i r mf h => lt_metricfamily i r mf h,
   fun fuel1 fuel2 i h1 h2 => many0Go_fuel fuel1 fuel2 i h1 h2⟩

/-- Witness for C10: the sample line "x 0\n" is consumed entirely (remainder
shrinks from 4 to 0 bytes), and on "y 2\n" the loop result is the same for
bounds 5 and 6. -/
theorem C10_metricfamily_progress_witness :
    ([] : Input).length < (str "x 0\n").length ∧
    many0Go (consumedP metricfamily) 5 (str "y 2\n")
      = many0Go (consumedP metricfamily) 6 (str "y 2\n") :=
  ⟨C10_metricfamily_progress.1 (str "x 0\n") []
      (Metricfamily.mk [] [(str "x 0\n",
        Metric.mk [(str "x 0\n", Sample.mk (str "x") none (str "0") none none)])])
      (by decide),
   C10_metricfamily_progress.2 5 6 (str "y 2\n") (by decide) (by decide)⟩

end ON
